import Mathlib

/-!
Verification of the `recept` repository's two specified components:

* `recept/apps/shell.py` — the directory-stack utility (`cwd`, `cd`, `pushd`
  with its re-entrant lock), modelled as explicit state passing over an
  abstract filesystem and an OS working directory.
* `recept/apps/app.py` — the command resolver `app`, which bakes a located
  executable or falls back to a python subprocess that prints an error and
  exits with status 1.

Paths are modelled as lists of components; an absolute path is the list of
components from the root.  The OS filesystem is a finite set of directory
paths and file paths.  Errors raised by python code are modelled with an
explicit error type and an `Outcome` that carries the state at the point
of the error, so that claims about "the working directory is unchanged
after a failure" are statable.
-/

namespace Recept

/-- An abstract filesystem: the set of existing directories and existing
files, each identified by its absolute path (list of components).  The
root `[]` always exists as a directory. -/
structure FS where
  dirs : List (List String)
  files : List (List String)
deriving DecidableEq

/-- Does `p` exist as a directory?  The root always does. -/
def dirExists (fs : FS) (p : List String) : Bool :=
  p.isEmpty || fs.dirs.contains p

/-- Does `p` exist as a regular file? -/
def isFile (fs : FS) (p : List String) : Bool :=
  fs.files.contains p

/-- `os.makedirs(path, exist_ok=True)`: walk the prefixes of the path from
the top down (`acc` is the prefix already processed, `rest` the remaining
components); a prefix that exists as a file makes the call raise (modelled
by returning `false`, together with the partially-extended filesystem), an
existing directory is skipped, a missing one is created. -/
def mkdirs : FS → List String → List String → Bool × FS
  | fs, _, [] => (true, fs)
  | fs, acc, c :: rest =>
    let q := acc ++ [c]
    if isFile fs q then (false, fs)
    else if dirExists fs q then mkdirs fs q rest
    else mkdirs { fs with dirs := q :: fs.dirs } q rest

/-- `os.makedirs(p, exist_ok=True)` starting from the root. -/
def makedirs (fs : FS) (p : List String) : Bool × FS :=
  mkdirs fs [] p

/-- A path argument as passed by callers: either absolute or relative to
the current working directory. -/
structure Path where
  isAbs : Bool
  comps : List String
deriving DecidableEq

/-- `os.path.abspath`: resolve a path against the current working
directory (which the OS keeps absolute). -/
def abspath (c : List String) (p : Path) : List String :=
  if p.isAbs then p.comps else c ++ p.comps

/-- Errors propagating out of shell operations: OS filesystem errors
(`FilesystemError`: creation or chdir failure), or an arbitrary failure
raised by the body of a `pushd` scope, tagged by a number so distinct
failures can be told apart. -/
inductive Err where
  | filesystemError
  | bodyFailure (n : Nat)
deriving DecidableEq

/-- The process state: the filesystem, the (absolute) OS working
directory, and the log of values printed by `print(cwd())` observations
made by scope bodies. -/
structure State where
  fs : FS
  cwd : List String
  log : List (List String)
deriving DecidableEq

/-- Result of running an operation: normal return or a raised error; both
carry the process state at that point. -/
inductive Outcome where
  | ok (s : State)
  | err (e : Err) (s : State)
deriving DecidableEq

/-- The state carried by an outcome. -/
def Outcome.state : Outcome → State
  | .ok s => s
  | .err _ s => s

/-- `cwd()`: the absolute path of the current working directory
(`os.path.abspath(os.getcwd())`; the OS already keeps it absolute). -/
def cwd (s : State) : List String :=
  s.cwd

/-- `os.chdir(p)` for an absolute target `p`: succeeds iff `p` exists as a
directory, and then only the working directory changes; on failure an
`OSError` (modelled as `filesystemError`) is raised and the state is
untouched. -/
def chdir (s : State) (p : List String) : Outcome :=
  if dirExists s.fs p then .ok { s with cwd := p } else .err .filesystemError s

/-- `cd(path, create)` from `shell.py`: optionally `os.makedirs(path,
exist_ok=True)`, then `os.chdir(path)`.  A relative path is resolved by
the OS against the current working directory at the point of use. -/
def cd (st : State) (p : Path) (create : Bool) : Outcome :=
  if create then
    let r := makedirs st.fs (abspath st.cwd p)
    if r.1 then chdir { st with fs := r.2 } (abspath st.cwd p)
    else .err .filesystemError { st with fs := r.2 }
  else chdir st (abspath st.cwd p)

/-- The entry part of `pushd(path, create)`: resolve the target to an
absolute path, optionally create it, and change into it.  (The snapshot
`cwd = os.getcwd()` taken by the source before these steps is the `st.cwd`
of the input state.) -/
def pushdEnter (st : State) (p : Path) (create : Bool) : Outcome :=
  let target := abspath st.cwd p
  if create then
    let r := makedirs st.fs target
    if r.1 then chdir { st with fs := r.2 } target
    else .err .filesystemError { st with fs := r.2 }
  else chdir st target

/-- The `pushd(path, create)` context manager from `shell.py`, applied to
a scope body (the code executed under the `with` statement), in
single-thread semantics (the re-entrant `PUSHD_LOCK` is acquired at entry
and released at exit; with one thread it never blocks — the lock itself is
modelled separately).  Entry records the working directory, resolves and
optionally creates the target, and changes into it; the `finally:` block
then changes back to the recorded directory.  Python semantics of a
`finally:` block that raises: its exception propagates in place of any
in-flight exception from the body. -/
def pushd (st : State) (p : Path) (create : Bool) (body : State → Outcome) : Outcome :=
  let cwd0 := st.cwd
  match pushdEnter st p create with
  | .err e s => .err e s
  | .ok s1 =>
    let r := body s1
    match chdir r.state cwd0 with
    | .err e2 s2 => .err e2 s2
    | .ok s2 =>
      match r with
      | .ok _ => .ok s2
      | .err e _ => .err e s2

/-- `print(cwd())` inside a scope body: append the current working
directory to the observation log. -/
def obs (s : State) : State :=
  { s with log := s.log ++ [s.cwd] }

/-- Sequencing of python statements: run `f` on the state unless an
exception is already propagating. -/
def Outcome.andThen (r : Outcome) (f : State → Outcome) : Outcome :=
  match r with
  | .ok s => f s
  | .err e s => .err e s

/-! ## The command resolver (`recept/apps/app.py`) -/

/-- The environment the resolver runs in: which executable names the
system search path can locate, and the behaviour of executing a located
executable (captured output and exit code as a function of its
arguments).  Process execution is an external collaborator, so it is a
parameter of the model. -/
structure SysEnv where
  found : List String
  exec : String → List String → String × Nat

/-- The program bound into a handle: either a located executable, or the
fallback — the running python interpreter invoked with `-c` on a script
that prints the missing-command message and calls `sys.exit(1)`. -/
inductive Prog where
  | exe (name : String)
  | pyFallback (missing : String)
deriving DecidableEq

/-- A baked `sh` command handle: program, pre-baked arguments, and the
set of exit codes accepted as success (`_ok_code`; `sh`'s default accepts
only 0). -/
structure Handle where
  prog : Prog
  bakedArgs : List String
  okCodes : List Nat
deriving DecidableEq

/-- The message printed (via `click.secho(..., fg='red')`) by the
fallback script for a missing command name. -/
def missingMsg (name : String) : String :=
  "Command `" ++ name ++ "` not found"

/-- `app(name, *args, **kwargs)` from `app.py`: `sh.Command(name)`
resolves the name on the search path; on success the handle is baked with
the given arguments and options; on `sh.CommandNotFound` the fallback
handle is returned — `sh.Command(sys.executable)` baked with `-c` and the
error script, with `sh`'s default accepted exit codes (only 0). -/
def app (env : SysEnv) (name : String) (args : List String)
    (okCodes : List Nat) : Handle :=
  if env.found.contains name then ⟨.exe name, args, okCodes⟩
  else ⟨.pyFallback name, [], [0]⟩

/-- Run a program in a child process, returning its captured output and
exit code.  The fallback script ignores its argument vector, prints the
missing-command message and exits with status 1 — `sys.exit(1)` inside
the `-c` payload terminates the *child* interpreter only, so from the
parent it is just an exit code of 1. -/
def runProg (env : SysEnv) : Prog → List String → String × Nat
  | .exe n, args => env.exec n args
  | .pyFallback name, _ => (missingMsg name, 1)

/-- What an invocation of a handle does in the calling process.
`sh` either returns normally (exit code in the accepted set) or raises
`sh.ErrorReturnCode_N` — an ordinary catchable exception carrying the
exit code and captured output.  `processExited c` — the calling process
itself terminating via `sys.exit(c)` — is in the domain of results so the
specified behaviour is statable, but `sh` never does it. -/
inductive InvokeResult where
  | done (out : String) (code : Nat)
  | raised (code : Nat) (out : String)
  | processExited (code : Nat)
deriving DecidableEq

/-- Invoke a baked handle with call-time arguments: the child runs with
the baked arguments followed by the call-time ones; exit codes outside
the accepted set raise `ErrorReturnCode` in the caller. -/
def invoke (env : SysEnv) (h : Handle) (callArgs : List String) : InvokeResult :=
  let r := runProg env h.prog (h.bakedArgs ++ callArgs)
  if h.okCodes.contains r.2 then .done r.1 r.2 else .raised r.2 r.1

/-! ## The re-entrant pushd lock (`PUSHD_LOCK` and `with_lock`)

`threading.RLock` is an external primitive: it records its owning thread
and a hold count; an acquire by the owner succeeds immediately
incrementing the count, an acquire by another thread while held blocks
(modelled as no transition), and a release decrements the count, freeing
the lock when it reaches zero.  `with_lock(PUSHD_LOCK)` makes every
`pushd` entry acquire the lock and every scope exit release it. -/

/-- The state of a re-entrant lock: owning thread (if any) and hold
count. -/
structure RLock where
  owner : Option Nat
  count : Nat
deriving DecidableEq

/-- An unheld lock. -/
def RLock.free : RLock := ⟨none, 0⟩

/-- A non-blocking view of `RLock.acquire` by thread `t`: `some` of the
new lock state when the acquire succeeds immediately, `none` when the
caller would block (the lock is held by a different thread). -/
def tryAcquire (l : RLock) (t : Nat) : Option RLock :=
  match l.owner with
  | none => some ⟨some t, 1⟩
  | some o => if o = t then some ⟨some t, l.count + 1⟩ else none

/-- `RLock.release`: decrement the hold count, freeing the lock when the
count reaches zero. -/
def release (l : RLock) : RLock :=
  if l.count ≤ 1 then RLock.free else ⟨l.owner, l.count - 1⟩

/-- `n` successive acquires by thread `t` (entering `n` nested `pushd`
scopes); `none` as soon as one of them would block. -/
def acquireN (l : RLock) (t : Nat) : Nat → Option RLock
  | 0 => some l
  | n + 1 =>
    match tryAcquire l t with
    | none => none
    | some l2 => acquireN l2 t n

/-- `n` successive releases (exiting `n` nested `pushd` scopes). -/
def releaseN (l : RLock) : Nat → RLock
  | 0 => l
  | n + 1 => releaseN (release l) n

/-- Result of one thread attempting a (non-nested) locked `pushd`:
either it blocks on the lock — nothing runs, the state is untouched — or
it acquires, runs the scope, and releases on exit. -/
inductive LockedRun where
  | blocked (l : RLock) (s : State)
  | ran (l : RLock) (r : Outcome)
deriving DecidableEq

/-- A single `pushd` under `with_lock(PUSHD_LOCK)` attempted by thread
`t`: the lock is acquired before anything else (in particular before the
target directory is created or entered); if the acquire would block, no
state change happens at all. -/
def pushdLocked (l : RLock) (t : Nat) (st : State) (p : Path) (create : Bool)
    (body : State → Outcome) : LockedRun :=
  match tryAcquire l t with
  | none => .blocked l st
  | some l2 => .ran (release l2) (pushd st p create body)

/-! ## Well-formed filesystems

A real filesystem satisfies: every ancestor of an existing directory is
itself a directory, and no path is both a directory and a file.  Concrete
counterexample states are built well-formed; theorems that need the
invariant take it as a hypothesis. -/

/-- Well-formedness of the abstract filesystem. -/
def wfFS (fs : FS) : Bool :=
  fs.dirs.all fun p =>
    !isFile fs p &&
      p.inits.all fun q => q.isEmpty || (dirExists fs q && !isFile fs q)

/-! ## Basic lemmas about the filesystem operations -/

theorem chdir_state_fs (s : State) (p : List String) :
    (chdir s p).state.fs = s.fs := by
  unfold chdir
  by_cases h : dirExists s.fs p = true
  · simp [h, Outcome.state]
  · simp [h, Outcome.state]

theorem chdir_ok_iff (s : State) (p : List String) (s2 : State) :
    chdir s p = .ok s2 ↔ dirExists s.fs p = true ∧ s2 = { s with cwd := p } := by
  unfold chdir
  by_cases h : dirExists s.fs p = true
  · simp [h, eq_comm]
  · simp [h]

theorem chdir_err_iff (s : State) (p : List String) (e : Err) (s2 : State) :
    chdir s p = .err e s2 ↔
      dirExists s.fs p = false ∧ e = .filesystemError ∧ s2 = s := by
  unfold chdir
  by_cases h : dirExists s.fs p = true
  · simp [h]
  · have h2 : dirExists s.fs p = false := by simpa using h
    simp [h, h2, eq_comm]

theorem dirExists_cons (fs : FS) (x q : List String)
    (h : dirExists fs q = true) :
    dirExists { fs with dirs := x :: fs.dirs } q = true := by
  unfold dirExists at *
  rcases Bool.or_eq_true_iff.mp h with h1 | h1
  · simp [h1]
  · have h2 : q ∈ fs.dirs := by simpa using h1
    simp [h2]

theorem mkdirs_mono (rest : List String) :
    ∀ (fs : FS) (acc q : List String), dirExists fs q = true →
      dirExists (mkdirs fs acc rest).2 q = true := by
  induction rest with
  | nil => intro fs acc q h; simpa [mkdirs] using h
  | cons c rest ih =>
    intro fs acc q h
    unfold mkdirs
    by_cases hf : isFile fs (acc ++ [c]) = true
    · simpa [hf] using h
    · by_cases hd : dirExists fs (acc ++ [c]) = true
      · simp only [hf, hd]
        simpa using ih fs (acc ++ [c]) q h
      · simp only [hf, hd]
        simp only [Bool.false_eq_true, if_false]
        exact ih _ (acc ++ [c]) q (dirExists_cons fs (acc ++ [c]) q h)

theorem mkdirs_creates_all (rest : List String) :
    ∀ (fs : FS) (acc r1 : List String), dirExists fs acc = true →
      (mkdirs fs acc rest).1 = true → r1 <+: rest →
      dirExists (mkdirs fs acc rest).2 (acc ++ r1) = true := by
  induction rest with
  | nil =>
    intro fs acc r1 hacc _ hpre
    rw [List.prefix_nil.mp hpre]
    simpa [mkdirs] using hacc
  | cons c rest ih =>
    intro fs acc r1 hacc hok hpre
    unfold mkdirs at hok ⊢
    by_cases hf : isFile fs (acc ++ [c]) = true
    · simp [hf] at hok
    · by_cases hd : dirExists fs (acc ++ [c]) = true
      · simp only [hf, hd] at hok ⊢
        simp only [Bool.false_eq_true, if_false, if_true] at hok ⊢
        rcases r1 with _ | ⟨c1, r1⟩
        · simpa using mkdirs_mono rest fs (acc ++ [c]) acc hacc
        · obtain ⟨hc, hpre'⟩ := List.cons_prefix_cons.mp hpre
          subst hc
          have := ih fs (acc ++ [c1]) r1 hd hok hpre'
          simpa [List.append_assoc] using this
      · simp only [hf, hd] at hok ⊢
        simp only [Bool.false_eq_true, if_false] at hok ⊢
        have hd2 : dirExists { fs with dirs := (acc ++ [c]) :: fs.dirs }
            (acc ++ [c]) = true := by
          simp [dirExists]
        rcases r1 with _ | ⟨c1, r1⟩
        · have hacc2 : dirExists { fs with dirs := (acc ++ [c]) :: fs.dirs }
              acc = true := dirExists_cons fs (acc ++ [c]) acc hacc
          simpa using mkdirs_mono rest _ (acc ++ [c]) acc hacc2
        · obtain ⟨hc, hpre'⟩ := List.cons_prefix_cons.mp hpre
          subst hc
          have := ih _ (acc ++ [c1]) r1 hd2 hok hpre'
          simpa [List.append_assoc] using this

theorem mkdirs_skip (rest : List String) :
    ∀ (fs : FS) (acc : List String),
      (∀ r1 : List String, r1 ≠ [] → r1 <+: rest →
        dirExists fs (acc ++ r1) = true ∧ isFile fs (acc ++ r1) = false) →
      mkdirs fs acc rest = (true, fs) := by
  induction rest with
  | nil => intro fs acc _; rfl
  | cons c rest ih =>
    intro fs acc h
    have hc := h [c] (by simp) ⟨rest, rfl⟩
    unfold mkdirs
    simp only [hc.1, hc.2]
    simp only [Bool.false_eq_true, if_false, if_true]
    exact ih fs (acc ++ [c]) fun r1 hne hpre => by
      have := h (c :: r1) (by simp) (List.cons_prefix_cons.mpr ⟨rfl, hpre⟩)
      simpa [List.append_assoc] using this

theorem pushd_of_enter_err (st : State) (p : Path) (c : Bool)
    (body : State → Outcome) (e : Err) (s : State)
    (h : pushdEnter st p c = .err e s) :
    pushd st p c body = .err e s := by
  simp only [pushd, h]

theorem pushd_of_restore_err (st : State) (p : Path) (c : Bool)
    (body : State → Outcome) (s1 : State) (e2 : Err) (s2 : State)
    (h1 : pushdEnter st p c = .ok s1)
    (h2 : chdir (body s1).state st.cwd = .err e2 s2) :
    pushd st p c body = .err e2 s2 := by
  simp only [pushd, h1, h2]

theorem pushd_of_body_ok (st : State) (p : Path) (c : Bool)
    (body : State → Outcome) (s1 sb s2 : State)
    (h1 : pushdEnter st p c = .ok s1) (hb : body s1 = .ok sb)
    (h2 : chdir sb st.cwd = .ok s2) :
    pushd st p c body = .ok s2 := by
  simp only [pushd, h1, hb, Outcome.state, h2]

theorem pushd_of_body_err (st : State) (p : Path) (c : Bool)
    (body : State → Outcome) (s1 : State) (e : Err) (sb s2 : State)
    (h1 : pushdEnter st p c = .ok s1) (hb : body s1 = .err e sb)
    (h2 : chdir sb st.cwd = .ok s2) :
    pushd st p c body = .err e s2 := by
  simp only [pushd, h1, hb, Outcome.state, h2]

theorem pushdEnter_err_inv (st : State) (p : Path) (c : Bool) (e : Err)
    (s : State) (h : pushdEnter st p c = .err e s) :
    s.cwd = st.cwd ∧ e = Err.filesystemError := by
  unfold pushdEnter at h
  cases c with
  | false =>
    simp only [Bool.false_eq_true, if_false] at h
    rw [chdir_err_iff] at h
    exact ⟨by rw [h.2.2], h.2.1⟩
  | true =>
    simp only [if_true] at h
    by_cases hm : (makedirs st.fs (abspath st.cwd p)).1 = true
    · rw [if_pos hm] at h
      rw [chdir_err_iff] at h
      exact ⟨by rw [h.2.2], h.2.1⟩
    · rw [if_neg hm] at h
      simp only [Outcome.err.injEq] at h
      exact ⟨by rw [← h.2], h.1.symm⟩

theorem cd_err_inv (st : State) (p : Path) (c : Bool) (e : Err)
    (s : State) (h : cd st p c = .err e s) :
    s.cwd = st.cwd ∧ e = Err.filesystemError := by
  unfold cd at h
  cases c with
  | false =>
    simp only [Bool.false_eq_true, if_false] at h
    rw [chdir_err_iff] at h
    exact ⟨by rw [h.2.2], h.2.1⟩
  | true =>
    simp only [if_true] at h
    by_cases hm : (makedirs st.fs (abspath st.cwd p)).1 = true
    · rw [if_pos hm] at h
      rw [chdir_err_iff] at h
      exact ⟨by rw [h.2.2], h.2.1⟩
    · rw [if_neg hm] at h
      simp only [Outcome.err.injEq] at h
      exact ⟨by rw [← h.2], h.1.symm⟩

theorem wf_makedirs_of_dirExists (fs : FS) (p : List String)
    (hwf : wfFS fs = true) (hp : dirExists fs p = true) :
    makedirs fs p = (true, fs) := by
  unfold makedirs
  apply mkdirs_skip
  intro r1 hne hpre
  simp only [List.nil_append]
  unfold dirExists at hp
  rcases Bool.or_eq_true_iff.mp hp with h1 | h1
  · exfalso
    exact hne (List.prefix_nil.mp (by simpa [List.isEmpty_iff.mp h1] using hpre))
  · unfold wfFS at hwf
    rw [List.all_eq_true] at hwf
    have hp2 := hwf p (by simpa using h1)
    rw [Bool.and_eq_true] at hp2
    have hall := hp2.2
    rw [List.all_eq_true] at hall
    have hr := hall r1 (by rw [List.mem_inits]; exact hpre)
    rcases Bool.or_eq_true_iff.mp hr with h2 | h2
    · exact absurd (List.isEmpty_iff.mp h2) hne
    · rw [Bool.and_eq_true] at h2
      exact ⟨h2.1, by simpa using h2.2⟩

theorem makedirs_creates (fs : FS) (p : List String)
    (hok : (makedirs fs p).1 = true) :
    dirExists (makedirs fs p).2 p = true := by
  simpa [makedirs] using
    mkdirs_creates_all p fs [] p (by simp [dirExists])
      (by simpa [makedirs] using hok) (List.prefix_refl p)

theorem makedirs_creates_all (fs : FS) (p r1 : List String)
    (hok : (makedirs fs p).1 = true) (hpre : r1 <+: p) :
    dirExists (makedirs fs p).2 r1 = true := by
  simpa [makedirs] using
    mkdirs_creates_all p fs [] r1 (by simp [dirExists])
      (by simpa [makedirs] using hok) hpre

theorem makedirs_mono (fs : FS) (p q : List String)
    (h : dirExists fs q = true) :
    dirExists (makedirs fs p).2 q = true := by
  simpa [makedirs] using mkdirs_mono p fs [] q h

theorem pushdEnter_create_ok (st : State) (p : Path)
    (hok : (makedirs st.fs (abspath st.cwd p)).1 = true) :
    pushdEnter st p true
      = .ok { st with fs := (makedirs st.fs (abspath st.cwd p)).2,
                      cwd := abspath st.cwd p } := by
  simp [pushdEnter, hok, chdir,
    makedirs_creates st.fs (abspath st.cwd p) hok]

/-! ## Claim theorems -/

/-- C3: for every path (and scope body, and `create` flag) for which
`pushd` succeeds, exiting the pushd scope restores `cwd()` to exactly the
value observed immediately before entering the scope. -/
theorem c3_pushd_roundtrip (st : State) (p : Path) (c : Bool)
    (body : State → Outcome) (s2 : State)
    (h : pushd st p c body = .ok s2) :
    cwd s2 = cwd st := by
  cases he : pushdEnter st p c with
  | err e s =>
    rw [pushd_of_enter_err st p c body e s he] at h
    exact absurd h (by simp)
  | ok s1 =>
    cases hc : chdir (body s1).state st.cwd with
    | err e2 s3 =>
      rw [pushd_of_restore_err st p c body s1 e2 s3 he hc] at h
      exact absurd h (by simp)
    | ok s3 =>
      obtain ⟨hd, h3⟩ := (chdir_ok_iff _ _ _).mp hc
      cases hb : body s1 with
      | ok sb =>
        rw [hb] at hc
        rw [pushd_of_body_ok st p c body s1 sb s3 he hb hc] at h
        have h4 : s3 = s2 := by injection h
        rw [← h4, h3]
        rfl
      | err e sb =>
        rw [hb] at hc
        rw [pushd_of_body_err st p c body s1 e sb s3 he hb hc] at h
        exact absurd h (by simp)

/-- C3 witness: a concrete successful `pushd` whose exit state has the
entry working directory. -/
theorem c3_witness :
    pushd ⟨⟨[["a"]], []⟩, [], []⟩ ⟨true, ["a"]⟩ false (fun s => .ok (obs s))
        = .ok ⟨⟨[["a"]], []⟩, [], [["a"]]⟩ ∧
    cwd (⟨⟨[["a"]], []⟩, [], [["a"]]⟩ : State)
      = cwd (⟨⟨[["a"]], []⟩, [], []⟩ : State) :=
  ⟨by decide,
    c3_pushd_roundtrip ⟨⟨[["a"]], []⟩, [], []⟩ ⟨true, ["a"]⟩ false
      (fun s => .ok (obs s)) ⟨⟨[["a"]], []⟩, [], [["a"]]⟩ (by decide)⟩

/-- C5: `cd` and `pushd` fail atomically: every `cd` failure (creation or
entry) leaves the working directory unchanged and is a `FilesystemError`;
every failure of `pushd`'s creation/entry step makes the whole `pushd`
fail with that error, with the working directory unchanged; and `cd` with
`create=false` on a missing path raises `FilesystemError` with the state
fully untouched. -/
theorem c5_fail_atomic (st : State) (p : Path) (c : Bool) :
    (∀ e s, cd st p c = .err e s →
      s.cwd = st.cwd ∧ e = Err.filesystemError) ∧
    (∀ (body : State → Outcome) e s, pushdEnter st p c = .err e s →
      pushd st p c body = .err e s ∧ s.cwd = st.cwd) ∧
    (dirExists st.fs (abspath st.cwd p) = false →
      cd st p false = .err Err.filesystemError st) := by
  refine ⟨fun e s h => cd_err_inv st p c e s h,
    fun body e s h =>
      ⟨pushd_of_enter_err st p c body e s h,
        (pushdEnter_err_inv st p c e s h).1⟩,
    fun hd => ?_⟩
  simp [cd, chdir, hd]

/-- C5 witness: `cd` on a concrete missing path with `create=false`
raises `FilesystemError` and leaves the state untouched. -/
theorem c5_witness :
    dirExists (⟨[["a"]], []⟩ : FS) (abspath [] ⟨true, ["b"]⟩) = false ∧
    cd ⟨⟨[["a"]], []⟩, [], []⟩ ⟨true, ["b"]⟩ false
      = .err Err.filesystemError ⟨⟨[["a"]], []⟩, [], []⟩ :=
  ⟨by decide,
    (c5_fail_atomic ⟨⟨[["a"]], []⟩, [], []⟩ ⟨true, ["b"]⟩ false).2.2
      (by decide)⟩

/-- C10: on exit of every pushd scope, provided the entry directory still
exists in the exit state, the working directory equals the absolute
directory recorded at scope entry — for every body, even one that moved
the working directory again with `cd`, and whether or not the body
failed: the restore target is the entry-time snapshot. -/
theorem c10_restore_entry_snapshot (st : State) (p : Path) (c : Bool)
    (body : State → Outcome)
    (h : dirExists (pushd st p c body).state.fs st.cwd = true) :
    cwd (pushd st p c body).state = cwd st := by
  cases he : pushdEnter st p c with
  | err e s =>
    rw [pushd_of_enter_err st p c body e s he]
    exact (pushdEnter_err_inv st p c e s he).1
  | ok s1 =>
    cases hc : chdir (body s1).state st.cwd with
    | ok s3 =>
      obtain ⟨hd, h3⟩ := (chdir_ok_iff _ _ _).mp hc
      cases hb : body s1 with
      | ok sb =>
        rw [hb] at hc
        rw [pushd_of_body_ok st p c body s1 sb s3 he hb hc, h3]
        rfl
      | err e sb =>
        rw [hb] at hc
        rw [pushd_of_body_err st p c body s1 e sb s3 he hb hc, h3]
        rfl
    | err e2 s3 =>
      obtain ⟨hd, he2, h3⟩ := (chdir_err_iff _ _ _ _).mp hc
      rw [pushd_of_restore_err st p c body s1 e2 s3 he hc] at h
      simp only [Outcome.state] at h
      rw [h3, hd] at h
      exact absurd h (by simp)

/-- C10 witness: a concrete scope whose body moves the working directory
elsewhere with `cd`; on exit the entry snapshot is restored. -/
theorem c10_witness :
    dirExists (pushd ⟨⟨[["a"], ["b"]], []⟩, [], []⟩ ⟨true, ["a"]⟩ false
        (fun s => cd s ⟨true, ["b"]⟩ false)).state.fs [] = true ∧
    cwd (pushd ⟨⟨[["a"], ["b"]], []⟩, [], []⟩ ⟨true, ["a"]⟩ false
        (fun s => cd s ⟨true, ["b"]⟩ false)).state
      = cwd (⟨⟨[["a"], ["b"]], []⟩, [], []⟩ : State) :=
  ⟨by decide, c10_restore_entry_snapshot _ _ _ _ (by decide)⟩

/-- C9: for every path that already exists as a directory (in a
well-formed filesystem whose working directory exists), `cd(path,
create=true)` and `pushd(path, create=true)` succeed without error —
creation is a no-op on an existing directory — and change the working
directory into the path (for `pushd`: inside the scope, reverting on
exit). -/
theorem c9_create_noop_existing (st : State) (p : Path)
    (hwf : wfFS st.fs = true)
    (hd : dirExists st.fs (abspath st.cwd p) = true)
    (hcwd : dirExists st.fs st.cwd = true) :
    cd st p true = .ok { st with cwd := abspath st.cwd p } ∧
    pushdEnter st p true = .ok { st with cwd := abspath st.cwd p } ∧
    pushd st p true (fun s => .ok (obs s))
      = .ok { st with log := st.log ++ [abspath st.cwd p] } := by
  have hm := wf_makedirs_of_dirExists st.fs (abspath st.cwd p) hwf hd
  have hcd : cd st p true = .ok { st with cwd := abspath st.cwd p } := by
    simp [cd, hm, chdir, hd]
  have hen : pushdEnter st p true
      = .ok { st with cwd := abspath st.cwd p } := by
    simp [pushdEnter, hm, chdir, hd]
  refine ⟨hcd, hen, ?_⟩
  refine pushd_of_body_ok st p true _ _ _ _ hen rfl ?_
  simp [chdir, obs, hcwd]

/-- C9 witness: a concrete existing directory entered with
`create=true` by `cd` and by `pushd`. -/
theorem c9_witness :
    wfFS (⟨[["a"]], []⟩ : FS) = true ∧
    cd ⟨⟨[["a"]], []⟩, [], []⟩ ⟨true, ["a"]⟩ true
      = .ok ⟨⟨[["a"]], []⟩, ["a"], []⟩ ∧
    pushd ⟨⟨[["a"]], []⟩, [], []⟩ ⟨true, ["a"]⟩ true (fun s => .ok (obs s))
      = .ok ⟨⟨[["a"]], []⟩, [], [["a"]]⟩ :=
  ⟨by decide,
    (c9_create_noop_existing ⟨⟨[["a"]], []⟩, [], []⟩ ⟨true, ["a"]⟩
      (by decide) (by decide) (by decide)).1,
    (c9_create_noop_existing ⟨⟨[["a"]], []⟩, [], []⟩ ⟨true, ["a"]⟩
      (by decide) (by decide) (by decide)).2.2⟩

/-- C8: `pushd(path, create=true)` on a path that does not yet exist
creates it (and its missing ancestors), makes the working directory the
path's absolute form inside the scope, and on exit the created
directories still exist while the working directory reverts to its
pre-entry value. -/
theorem c8_pushd_create (st : State) (p : Path)
    (_hne : dirExists st.fs (abspath st.cwd p) = false)
    (hok : (makedirs st.fs (abspath st.cwd p)).1 = true)
    (hcwd : dirExists st.fs st.cwd = true) :
    pushd st p true (fun s => .ok (obs s))
      = .ok { st with fs := (makedirs st.fs (abspath st.cwd p)).2,
                      log := st.log ++ [abspath st.cwd p] } ∧
    ∀ r1 : List String, r1 <+: abspath st.cwd p →
      dirExists (makedirs st.fs (abspath st.cwd p)).2 r1 = true := by
  refine ⟨?_, fun r1 hpre =>
    makedirs_creates_all st.fs (abspath st.cwd p) r1 hok hpre⟩
  have hmono : dirExists (makedirs st.fs (abspath st.cwd p)).2 st.cwd
      = true := makedirs_mono st.fs (abspath st.cwd p) st.cwd hcwd
  refine pushd_of_body_ok st p true _ _ _ _
    (pushdEnter_create_ok st p hok) rfl ?_
  simp [chdir, obs, hmono]

/-- C8 witness: pushing a concrete two-level missing path with
`create=true`; the directory and its ancestor exist afterwards and the
working directory reverts. -/
theorem c8_witness :
    dirExists (⟨[], []⟩ : FS) (abspath [] ⟨true, ["a", "b"]⟩) = false ∧
    pushd ⟨⟨[], []⟩, [], []⟩ ⟨true, ["a", "b"]⟩ true (fun s => .ok (obs s))
      = .ok { fs := (makedirs ⟨[], []⟩ ["a", "b"]).2, cwd := [],
              log := [["a", "b"]] } ∧
    dirExists (makedirs ⟨[], []⟩ ["a", "b"]).2 ["a"] = true :=
  ⟨by decide,
    (c8_pushd_create ⟨⟨[], []⟩, [], []⟩ ⟨true, ["a", "b"]⟩
      (by decide) (by decide) (by decide)).1,
    (c8_pushd_create ⟨⟨[], []⟩, [], []⟩ ⟨true, ["a", "b"]⟩
      (by decide) (by decide) (by decide)).2 ["a"] ⟨["b"], rfl⟩⟩

/-- C4: nested pushd scopes restore in strict reverse (LIFO) order of
entry: `pushd(A)` then, inside it, `pushd(B)`, observing the working
directory at start, inside the outer scope, inside the inner scope,
after the inner exit and after the outer exit, yields exactly the
sequence start -> A -> A/B -> A -> start — each nested scope restores
the snapshot recorded at its own entry. -/
theorem c4_nested_lifo (st : State) (A B : Path)
    (hcwd : dirExists st.fs st.cwd = true)
    (hA : (makedirs st.fs (abspath st.cwd A)).1 = true)
    (hB : (makedirs (makedirs st.fs (abspath st.cwd A)).2
        (abspath (abspath st.cwd A) B)).1 = true) :
    (pushd (obs st) A true (fun s =>
        (pushd (obs s) B true (fun t => .ok (obs t))).andThen
          (fun u => .ok (obs u)))).andThen (fun v => .ok (obs v))
      = .ok { fs := (makedirs (makedirs st.fs (abspath st.cwd A)).2
                  (abspath (abspath st.cwd A) B)).2,
              cwd := st.cwd,
              log := st.log ++ [st.cwd, abspath st.cwd A,
                abspath (abspath st.cwd A) B, abspath st.cwd A, st.cwd] } := by
  have hdA : dirExists (makedirs st.fs (abspath st.cwd A)).2
      (abspath st.cwd A) = true :=
    makedirs_creates st.fs (abspath st.cwd A) hA
  have hdB : dirExists (makedirs (makedirs st.fs (abspath st.cwd A)).2
      (abspath (abspath st.cwd A) B)).2 (abspath (abspath st.cwd A) B)
      = true :=
    makedirs_creates (makedirs st.fs (abspath st.cwd A)).2
      (abspath (abspath st.cwd A) B) hB
  have hdA2 : dirExists (makedirs (makedirs st.fs (abspath st.cwd A)).2
      (abspath (abspath st.cwd A) B)).2 (abspath st.cwd A) = true :=
    makedirs_mono (makedirs st.fs (abspath st.cwd A)).2
      (abspath (abspath st.cwd A) B) (abspath st.cwd A) hdA
  have hcwd2 : dirExists (makedirs (makedirs st.fs (abspath st.cwd A)).2
      (abspath (abspath st.cwd A) B)).2 st.cwd = true :=
    makedirs_mono (makedirs st.fs (abspath st.cwd A)).2
      (abspath (abspath st.cwd A) B) st.cwd
      (makedirs_mono st.fs (abspath st.cwd A) st.cwd hcwd)
  have hen1 : pushdEnter (obs st) A true
      = .ok { fs := (makedirs st.fs (abspath st.cwd A)).2,
              cwd := abspath st.cwd A, log := st.log ++ [st.cwd] } := by
    have := pushdEnter_create_ok (obs st) A (by simpa [obs] using hA)
    simpa [obs] using this
  have hen2 : pushdEnter
      (obs ⟨(makedirs st.fs (abspath st.cwd A)).2, abspath st.cwd A,
        st.log ++ [st.cwd]⟩) B true
      = .ok ⟨(makedirs (makedirs st.fs (abspath st.cwd A)).2
            (abspath (abspath st.cwd A) B)).2,
          abspath (abspath st.cwd A) B,
          st.log ++ [st.cwd, abspath st.cwd A]⟩ := by
    have := pushdEnter_create_ok
      (obs ⟨(makedirs st.fs (abspath st.cwd A)).2, abspath st.cwd A,
        st.log ++ [st.cwd]⟩) B (by simpa [obs] using hB)
    simpa [obs] using this
  have hinner : pushd
      (obs ⟨(makedirs st.fs (abspath st.cwd A)).2, abspath st.cwd A,
        st.log ++ [st.cwd]⟩) B true (fun t => .ok (obs t))
      = .ok ⟨(makedirs (makedirs st.fs (abspath st.cwd A)).2
            (abspath (abspath st.cwd A) B)).2,
          abspath st.cwd A,
          st.log ++ [st.cwd, abspath st.cwd A,
            abspath (abspath st.cwd A) B]⟩ := by
    refine pushd_of_body_ok _ _ _ _ _ _ _ hen2 rfl ?_
    simp [chdir, obs, hdA2]
  have houter : pushd (obs st) A true (fun s =>
      (pushd (obs s) B true (fun t => .ok (obs t))).andThen
        (fun u => .ok (obs u)))
      = .ok ⟨(makedirs (makedirs st.fs (abspath st.cwd A)).2
            (abspath (abspath st.cwd A) B)).2,
          st.cwd,
          st.log ++ [st.cwd, abspath st.cwd A,
            abspath (abspath st.cwd A) B, abspath st.cwd A]⟩ := by
    refine pushd_of_body_ok _ _ _ _ _
      ⟨(makedirs (makedirs st.fs (abspath st.cwd A)).2
          (abspath (abspath st.cwd A) B)).2,
        abspath st.cwd A,
        st.log ++ [st.cwd, abspath st.cwd A,
          abspath (abspath st.cwd A) B, abspath st.cwd A]⟩
      _ hen1 ?_ ?_
    · show (pushd
          (obs ⟨(makedirs st.fs (abspath st.cwd A)).2, abspath st.cwd A,
            st.log ++ [st.cwd]⟩) B true
          (fun t => .ok (obs t))).andThen (fun u => .ok (obs u)) = _
      rw [hinner]
      simp [Outcome.andThen, obs]
    · simp [chdir, obs, hcwd2]
  rw [houter]
  simp [Outcome.andThen, obs]

/-- C4 witness: the nested scopes at a concrete start state produce
exactly the working-directory sequence start -> A -> A/B -> A -> start. -/
theorem c4_witness :
    (pushd (obs ⟨⟨[], []⟩, [], []⟩) ⟨true, ["a"]⟩ true (fun s =>
        (pushd (obs s) ⟨false, ["b"]⟩ true (fun t => .ok (obs t))).andThen
          (fun u => .ok (obs u)))).andThen (fun v => .ok (obs v))
      = .ok { fs := (makedirs (makedirs ⟨[], []⟩ ["a"]).2 ["a", "b"]).2,
              cwd := [], log := [[], ["a"], ["a", "b"], ["a"], []] } :=
  c4_nested_lifo ⟨⟨[], []⟩, [], []⟩ ⟨true, ["a"]⟩ ⟨false, ["b"]⟩
    (by decide) (by decide) (by decide)

/-- C1 counterexample: resolving a missing executable and invoking the
returned fallback handle raises a catchable command error (the spawned
python child prints the message and exits 1, and `sh` raises
`ErrorReturnCode_1` in the caller); it does not terminate the calling
process with exit status 1. -/
theorem c1_counterexample :
    invoke ⟨[], fun _ _ => ("", 0)⟩
        (app ⟨[], fun _ _ => ("", 0)⟩
          "definitely-not-a-real-binary-xyz" [] [0]) []
      = .raised 1 (missingMsg "definitely-not-a-real-binary-xyz") ∧
    invoke ⟨[], fun _ _ => ("", 0)⟩
        (app ⟨[], fun _ _ => ("", 0)⟩
          "definitely-not-a-real-binary-xyz" [] [0]) []
      ≠ .processExited 1 :=
  ⟨by decide, by decide⟩

/-- C1 amended: invoking the fallback handle for a missing executable,
with any call-time arguments, produces the error message naming the
missing command and exit status 1 in the child process; because 1 is not
an accepted exit code, the invocation raises a catchable
`ErrorReturnCode`-style error in the caller, and the calling process is
never terminated by it. -/
theorem c1_fallback_raises (env : SysEnv) (name : String)
    (args : List String) (okc : List Nat) (callArgs : List String)
    (h : env.found.contains name = false) :
    invoke env (app env name args okc) callArgs
      = .raised 1 (missingMsg name) ∧
    ∀ c, invoke env (app env name args okc) callArgs ≠ .processExited c := by
  have happ : app env name args okc = ⟨.pyFallback name, [], [0]⟩ := by
    have h2 : name ∉ env.found := by simpa using h
    simp [app, h2]
  rw [happ]
  constructor
  · simp [invoke, runProg]
  · intro c
    simp [invoke, runProg]

/-- C1 witness: the amended behaviour at a concrete environment, name
and call-time argument list. -/
theorem c1_witness :
    (⟨[], fun _ _ => ("", 0)⟩ : SysEnv).found.contains "missing-tool"
      = false ∧
    invoke ⟨[], fun _ _ => ("", 0)⟩
        (app ⟨[], fun _ _ => ("", 0)⟩ "missing-tool" [] [0]) ["x"]
      = .raised 1 (missingMsg "missing-tool") :=
  ⟨by decide,
    (c1_fallback_raises ⟨[], fun _ _ => ("", 0)⟩ "missing-tool" [] [0]
      ["x"] (by decide)).1⟩

/-- C2 counterexample: a pushd scope whose body fails with
`bodyFailure 0` and removes the entry directory; the restoration failure
in the `finally:` block propagates as `FilesystemError`, replacing the
original in-scope failure — the original does not reach the caller. -/
theorem c2_counterexample :
    pushd ⟨⟨[["h"], ["a"]], []⟩, ["h"], []⟩ ⟨true, ["a"]⟩ false
        (fun s => .err (.bodyFailure 0) { s with fs := ⟨[["a"]], []⟩ })
      = .err Err.filesystemError ⟨⟨[["a"]], []⟩, ["a"], []⟩ ∧
    Err.filesystemError ≠ Err.bodyFailure 0 :=
  ⟨by decide, by decide⟩

/-- C2 amended: when a pushd scope body fails, restoration of the
working directory is still attempted on exit; if the restoration
succeeds, the original in-scope failure propagates to the caller with
the working directory restored; but if the restoration itself fails, the
restoration failure (`FilesystemError`) propagates in place of the
original failure, masking it (the restoration failure is not separately
logged and suppressed). -/
theorem c2_restore_on_body_failure (st : State) (p : Path) (c : Bool)
    (body : State → Outcome) (s1 sb : State) (e : Err)
    (h1 : pushdEnter st p c = .ok s1) (hb : body s1 = .err e sb) :
    (dirExists sb.fs st.cwd = true →
      pushd st p c body = .err e { sb with cwd := st.cwd }) ∧
    (dirExists sb.fs st.cwd = false →
      pushd st p c body = .err Err.filesystemError sb) := by
  constructor
  · intro hd
    refine pushd_of_body_err st p c body s1 e sb _ h1 hb ?_
    simp [chdir, hd]
  · intro hd
    refine pushd_of_restore_err st p c body s1 _ _ h1 ?_
    rw [hb]
    simp [Outcome.state, chdir, hd]

/-- C2 witness: a concrete failing body whose entry directory survives;
restoration happens and the body's own failure propagates. -/
theorem c2_witness :
    pushdEnter ⟨⟨[["h"], ["a"]], []⟩, ["h"], []⟩ ⟨true, ["a"]⟩ false
      = .ok ⟨⟨[["h"], ["a"]], []⟩, ["a"], []⟩ ∧
    pushd ⟨⟨[["h"], ["a"]], []⟩, ["h"], []⟩ ⟨true, ["a"]⟩ false
        (fun s => .err (.bodyFailure 1) s)
      = .err (Err.bodyFailure 1) ⟨⟨[["h"], ["a"]], []⟩, ["h"], []⟩ :=
  ⟨by decide,
    (c2_restore_on_body_failure ⟨⟨[["h"], ["a"]], []⟩, ["h"], []⟩
      ⟨true, ["a"]⟩ false (fun s => .err (.bodyFailure 1) s)
      ⟨⟨[["h"], ["a"]], []⟩, ["a"], []⟩ ⟨⟨[["h"], ["a"]], []⟩, ["a"], []⟩
      (.bodyFailure 1) (by decide) (by decide)).1 (by decide)⟩

/-- C6: for every command name, `app` is a total function — resolution
never raises: when the name is on the search path it returns the command
handle baked with the given arguments and options, and otherwise it
returns the fallback handle bound to the requested name (failure is
deferred to invocation time). -/
theorem c6_app_total (env : SysEnv) (name : String) (args : List String)
    (okc : List Nat) :
    (env.found.contains name = true →
      app env name args okc = ⟨.exe name, args, okc⟩) ∧
    (env.found.contains name = false →
      app env name args okc = ⟨.pyFallback name, [], [0]⟩) := by
  constructor
  · intro h
    have h2 : name ∈ env.found := by simpa using h
    simp [app, h2]
  · intro h
    have h2 : name ∉ env.found := by simpa using h
    simp [app, h2]

/-- C6 witness: both resolution outcomes at concrete environments. -/
theorem c6_witness :
    (⟨["ls"], fun _ _ => ("", 0)⟩ : SysEnv).found.contains "ls" = true ∧
    app ⟨["ls"], fun _ _ => ("", 0)⟩ "ls" ["-l"] [0]
      = ⟨.exe "ls", ["-l"], [0]⟩ ∧
    app ⟨["ls"], fun _ _ => ("", 0)⟩ "gone" [] [0]
      = ⟨.pyFallback "gone", [], [0]⟩ :=
  ⟨by decide,
    (c6_app_total ⟨["ls"], fun _ _ => ("", 0)⟩ "ls" ["-l"] [0]).1
      (by decide),
    (c6_app_total ⟨["ls"], fun _ _ => ("", 0)⟩ "gone" [] [0]).2
      (by decide)⟩

/-! ## Lemmas about the re-entrant lock -/

theorem acquireN_owned (t : Nat) : ∀ n k : Nat,
    acquireN ⟨some t, k⟩ t n = some ⟨some t, k + n⟩ := by
  intro n
  induction n with
  | zero => intro k; rfl
  | succ n ih =>
    intro k
    have h1 : tryAcquire ⟨some t, k⟩ t = some ⟨some t, k + 1⟩ := by
      simp [tryAcquire]
    show (match tryAcquire ⟨some t, k⟩ t with
      | none => none
      | some l2 => acquireN l2 t n) = some ⟨some t, k + (n + 1)⟩
    rw [h1, show k + (n + 1) = (k + 1) + n by omega]
    exact ih (k + 1)

theorem releaseN_held (t : Nat) : ∀ k n : Nat, k < n →
    releaseN ⟨some t, n⟩ k = ⟨some t, n - k⟩ := by
  intro k
  induction k with
  | zero => intro n h; simp [releaseN]
  | succ k ih =>
    intro n h
    show releaseN (release ⟨some t, n⟩) k = _
    have h2 : release ⟨some t, n⟩ = ⟨some t, n - 1⟩ := by
      unfold release
      have h3 : ¬ n ≤ 1 := by omega
      simp [h3]
    rw [h2, ih (n - 1) (by omega)]
    congr 1
    omega

theorem releaseN_all (t : Nat) : ∀ n : Nat,
    releaseN ⟨some t, n + 1⟩ (n + 1) = RLock.free := by
  intro n
  induction n with
  | zero =>
    show releaseN (release ⟨some t, 1⟩) 0 = RLock.free
    simp [release, releaseN]
  | succ n ih =>
    show releaseN (release ⟨some t, n + 2⟩) (n + 1) = RLock.free
    have h2 : release ⟨some t, n + 2⟩ = ⟨some t, n + 1⟩ := by
      simp [release]
    rw [h2]
    exact ih

/-- C7: the pushd locking protocol.  From a free lock, `n`-deep nested
entry by thread `t1` acquires the single process-wide re-entrant lock and
every nested re-acquire succeeds without blocking; while any of the
nested scopes is still open (fewer than `n` exits) the lock remains owned
by `t1` with a positive count and another thread `t2` attempting `pushd`
is blocked with the state untouched — its target directory is not
entered; the lock becomes free exactly when the outermost scope closes,
after which `t2`'s `pushd` acquires the lock and runs. -/
theorem c7_lock_protocol (t1 t2 n : Nat) (hne : t1 ≠ t2) (hn : 1 ≤ n) :
    acquireN RLock.free t1 n = some ⟨some t1, n⟩ ∧
    (∀ k, k < n → releaseN ⟨some t1, n⟩ k = ⟨some t1, n - k⟩) ∧
    releaseN ⟨some t1, n⟩ n = RLock.free ∧
    (∀ (k : Nat) (st : State) (p : Path) (c : Bool)
        (body : State → Outcome), k < n →
      pushdLocked (releaseN ⟨some t1, n⟩ k) t2 st p c body
        = .blocked (releaseN ⟨some t1, n⟩ k) st) ∧
    (∀ (st : State) (p : Path) (c : Bool) (body : State → Outcome),
      pushdLocked RLock.free t2 st p c body
        = .ran RLock.free (pushd st p c body)) := by
  obtain ⟨m, rfl⟩ : ∃ m, n = m + 1 := ⟨n - 1, by omega⟩
  refine ⟨?_, fun k hk => releaseN_held t1 k (m + 1) hk,
    releaseN_all t1 m, ?_, ?_⟩
  · show (match tryAcquire RLock.free t1 with
      | none => none
      | some l2 => acquireN l2 t1 m) = some ⟨some t1, m + 1⟩
    have h1 : tryAcquire RLock.free t1 = some ⟨some t1, 1⟩ := rfl
    rw [h1]
    show acquireN ⟨some t1, 1⟩ t1 m = some ⟨some t1, m + 1⟩
    rw [acquireN_owned t1 m 1]
    simp [Nat.add_comm]
  · intro k st p c body hk
    rw [releaseN_held t1 k (m + 1) hk]
    have h2 : tryAcquire ⟨some t1, m + 1 - k⟩ t2 = none := by
      simp [tryAcquire, hne]
    simp [pushdLocked, h2]
  · intro st p c body
    have h1 : tryAcquire RLock.free t2 = some ⟨some t2, 1⟩ := rfl
    have h2 : release ⟨some t2, 1⟩ = RLock.free := by simp [release]
    simp [pushdLocked, h1, h2]

/-- C7 witness: a two-deep session of thread 0; thread 1 is blocked
after one exit (state untouched) and the lock is free after both. -/
theorem c7_witness :
    acquireN RLock.free 0 2 = some ⟨some 0, 2⟩ ∧
    releaseN ⟨some 0, 2⟩ 2 = RLock.free ∧
    pushdLocked (releaseN ⟨some 0, 2⟩ 1) 1 ⟨⟨[], []⟩, [], []⟩ ⟨true, []⟩
        false (fun s => .ok s)
      = .blocked (releaseN ⟨some 0, 2⟩ 1) ⟨⟨[], []⟩, [], []⟩ :=
  ⟨(c7_lock_protocol 0 1 2 (by decide) (by decide)).1,
    (c7_lock_protocol 0 1 2 (by decide) (by decide)).2.2.1,
    (c7_lock_protocol 0 1 2 (by decide) (by decide)).2.2.2.1 1
      ⟨⟨[], []⟩, [], []⟩ ⟨true, []⟩ false (fun s => .ok s) (by decide)⟩

end Recept
